import Mathlib

/-!
Verification of the `node-mbr` Master Boot Record codec.

The source is embedded shallowly: a Node `Buffer` becomes a `List Nat` of
byte values, the format detector and the NEWLDR extension codec become
pure Lean functions, and JavaScript exceptions become `Except` errors.
-/

namespace MBRSpec

set_option maxRecDepth 40000

/-- The six MBR format variants returned by `MBR.detectFormat`. -/
inductive MBRFormat : Type
  | CLASSIC | MODERN | AAP | NEWLDR | AST | DM
deriving DecidableEq, Repr

/-- Errors thrown by `MBR.detectFormat` on a byte buffer: the generic
`Error` for a too-small buffer, and the `SyntaxError` for a bad boot
signature.  (The `TypeError` for a non-Buffer argument is outside the
byte-list domain of this embedding.)  Each carries its message string. -/
inductive MBRError : Type
  | malformedSector (msg : String)
  | invalidSignature (msg : String)
deriving DecidableEq, Repr

instance {E A : Type} [DecidableEq E] [DecidableEq A] : DecidableEq (Except E A) := fun
  | .ok a, .ok b =>
      if h : a = b then .isTrue (by rw [h]) else .isFalse (by simp [h])
  | .ok _, .error _ => .isFalse (by simp)
  | .error _, .ok _ => .isFalse (by simp)
  | .error e, .error f =>
      if h : e = f then .isTrue (by rw [h]) else .isFalse (by simp [h])

/-- `buffer.readUInt16LE(off)`: little-endian 16-bit read.
Out-of-range indices are modelled as 0; every use in the source is
guarded by a length check. -/
def readUInt16LE (l : List Nat) (off : Nat) : Nat :=
  l.getD off 0 + 256 * l.getD (off + 1) 0

/-- One hexadecimal digit, uppercase, as produced by
`Number.prototype.toString(16).toUpperCase()`. -/
def hexDigit (n : Nat) : Char :=
  if n < 10 then Char.ofNat (48 + n) else Char.ofNat (55 + n)

/-- Digit-list worker for `toHexUpper`; the fuel argument only bounds the
recursion depth and any fuel of at least one plus the digit count is enough. -/
def hexCharsAux : Nat → Nat → List Char
  | 0, _ => []
  | f + 1, n =>
    if n < 16 then [hexDigit n]
    else hexCharsAux f (n / 16) ++ [hexDigit (n % 16)]

/-- The digit list of `Number.prototype.toString(16).toUpperCase()`:
most significant digit first, no zero padding, `0` renders as `"0"`. -/
def hexChars (n : Nat) : List Char := hexCharsAux (n + 1) n

/-- `value.toString(16).toUpperCase()` for a natural number. -/
def toHexUpper (n : Nat) : String := ⟨hexChars n⟩

/-- The message of the `SyntaxError` thrown on a bad boot signature,
with the actual 16-bit value interpolated (source lines 83-87). -/
def sigMessage (v : Nat) : String :=
  "Invalid MBR boot signature. Expected 0xAA55, but saw 0x" ++ toHexUpper v

/-- The message of the too-small-buffer `Error` (source line 79). -/
def tooSmallMessage : String := "Buffer too small (must be at least 512 bytes)"

/-- `buffer[0x17C] === 0x5A && buffer[0x17D] === 0xA5` (AST/NEC marker). -/
def astMarker (l : List Nat) : Bool :=
  l.getD 0x17C 0 == 0x5A && l.getD 0x17D 0 == 0xA5

/-- `buffer[0x0FC] === 0xAA && buffer[0x0FD] === 0x55` (Disk Manager marker). -/
def dmMarker (l : List Nat) : Bool :=
  l.getD 0x0FC 0 == 0xAA && l.getD 0x0FD 0 == 0x55

/-- `buffer[0x1AC] === 0x78 && buffer[0x1AD] === 0x56` (AAP marker). -/
def aapMarker (l : List Nat) : Bool :=
  l.getD 0x1AC 0 == 0x78 && l.getD 0x1AD 0 == 0x56

/-- `buffer[0x0DA] === 0x00 && buffer[0x0DB] === 0x00` (MODERN marker). -/
def modernMarker (l : List Nat) : Bool :=
  l.getD 0x0DA 0 == 0x00 && l.getD 0x0DB 0 == 0x00

/-- The Node `'ascii'` decoding of the bytes of `l` from position `start` to
the END of the buffer (each byte is masked with `0x7F`), as the list of
character codes.  This models `buffer.toString('ascii', start)`; two JS
strings are `===`-equal exactly when their code-unit lists are equal. -/
def asciiFrom (l : List Nat) (start : Nat) : List Nat :=
  (l.drop start).map (fun b => b % 128)

/-- The character codes of the string literal `'NEWLDR'`. -/
def newldrCodes : List Nat := [0x4E, 0x45, 0x57, 0x4C, 0x44, 0x52]

/-- `buffer.toString('ascii', 0x02) === 'NEWLDR'` (source line 94).
Note the missing end offset: the decoded string runs to the end of the
buffer, not to offset 0x08. -/
def newldrTag (l : List Nat) : Bool :=
  asciiFrom l 0x02 == newldrCodes

/-- `MBR.detectFormat` (source lines 73-104): length check, boot-signature
check, then the ordered marker chain AST, DM, NEWLDR, AAP, MODERN,
CLASSIC, first match winning. -/
def detectFormat (l : List Nat) : Except MBRError MBRFormat :=
  if l.length < 512 then
    .error (.malformedSector tooSmallMessage)
  else if readUInt16LE l 0x1FE ≠ 0xAA55 then
    .error (.invalidSignature (sigMessage (readUInt16LE l 0x1FE)))
  else if astMarker l then .ok .AST
  else if dmMarker l then .ok .DM
  else if newldrTag l then .ok .NEWLDR
  else if aapMarker l then .ok .AAP
  else if modernMarker l then .ok .MODERN
  else .ok .CLASSIC

/-- `MBR.createBuffer` (source lines 111-122): a 512-byte zero-filled
buffer with `0x55` at `0x1FE` and `0xAA` at `0x1FF`. -/
def createBuffer : List Nat :=
  ((List.replicate 512 0).set 0x1FE 0x55).set 0x1FF 0xAA

/-- A cylinder-head-sector address, the decoded form held by the `chs`
objects the NEWLDR record stores in its `firstCHS` field. -/
structure CHS : Type where
  cylinder : Nat
  head : Nat
  sector : Nat
deriving DecidableEq, Repr

/-- Modelled from the spec: the CHS codec lives in the external `chs`
package, not under src/.  Spec section 4.1 gives its decode:
`head = byte0`, `sector = byte1 AND 0x3F`,
`cylinder = ((byte1 AND 0xC0) shifted left 2) OR byte2`. -/
def CHS.fromBytes (b0 b1 b2 : Nat) : CHS :=
  { cylinder := ((b1 &&& 0xC0) <<< 2) ||| b2
    head := b0
    sector := b1 &&& 0x3F }

/-- Modelled from the spec: the CHS codec lives in the external `chs`
package, not under src/.  Spec section 4.1 gives its encode as the exact
inverse of decode, with out-of-range values masked to the declared bit
widths: `byte0 = head`, `byte1` packs the high two cylinder bits with the
6-bit sector, `byte2` is the low eight cylinder bits. -/
def CHS.toBytes (c : CHS) : List Nat :=
  [c.head % 256, ((c.cylinder >>> 2) &&& 0xC0) ||| (c.sector &&& 0x3F), c.cylinder % 256]

/-- The in-memory NEWLDR extension record (source lines 172-209): record
size, physical drive, CHS of the loader boot sector, minimum-DL flag,
32-bit LBA, 16-bit patch offset, 16-bit checksum, and the OEM signature
string. -/
structure NEWLDRRecord : Type where
  size : Nat
  physicalDrive : Nat
  firstCHS : CHS
  minDL : Nat
  firstLBA : Nat
  patchOffset : Nat
  checksum : Nat
  signature : String
deriving DecidableEq, Repr

/-- The two bytes written by `buffer.writeUInt16LE(v, off)` for an
in-range `v`, least significant first. -/
def le16 (v : Nat) : List Nat := [v % 256, v / 256 % 256]

/-- The four bytes written by `buffer.writeUInt32LE(v, off)` for an
in-range `v`, least significant first. -/
def le32 (v : Nat) : List Nat :=
  [v % 256, v / 256 % 256, v / 65536 % 256, v / 16777216 % 256]

/-- The six bytes occupying offsets 24-29 after
`buffer.write(s, 24, 'ascii')` on a zero-filled 30-byte buffer: at most
six characters of `s` are written (the write stops at the buffer end) and
any remaining bytes keep their zero fill. -/
def sigBytes (s : String) : List Nat :=
  let w := (s.data.take 6).map (fun c => c.toNat % 256)
  w ++ List.replicate (6 - w.length) 0

/-- The Node message for an out-of-range `writeUInt` value. -/
def outOfBoundsMessage : String := "value is out of bounds"

/-- The NEWLDR record `buffer` getter (source lines 215-235): allocate a
zero-filled 30-byte buffer, write the `0xEB` jump opcode at 0, the size
at 1, the literal `'NEWLDR'` tag at 2-7, the physical drive at 8, the
encoded CHS at 9-11, the minimum-DL flag at 12, leave 13-15 as reserved
zero fill, write the 32-bit LBA at 16-19, the patch offset at 20-21, the
checksum at 22-23 and the signature string at 24-29.  the Node checked
`writeUInt8/16/32LE` throw when the field value exceeds the integer
width, modelled as an `Except.error`; the checks happen in write order. -/
def NEWLDRRecord.getBuffer (r : NEWLDRRecord) : Except String (List Nat) :=
  if 256 ≤ r.size then .error outOfBoundsMessage
  else if 256 ≤ r.physicalDrive then .error outOfBoundsMessage
  else if 256 ≤ r.minDL then .error outOfBoundsMessage
  else if 4294967296 ≤ r.firstLBA then .error outOfBoundsMessage
  else if 65536 ≤ r.patchOffset then .error outOfBoundsMessage
  else if 65536 ≤ r.checksum then .error outOfBoundsMessage
  else .ok
    ([0xEB, r.size] ++ newldrCodes ++ [r.physicalDrive]
      ++ r.firstCHS.toBytes ++ [r.minDL, 0, 0, 0]
      ++ le32 r.firstLBA ++ le16 r.patchOffset ++ le16 r.checksum
      ++ sigBytes r.signature)

/-- The NEWLDR record `buffer` setter (source lines 237-253).  It assigns
every field of the record, so the prior record state is irrelevant and
decode is a pure function of the input bytes: size from byte 1, physical
drive from byte 8, CHS from the slice 9-11, minimum-DL flag from byte 12,
LBA little-endian from bytes 16-19, patch offset from bytes 20-21,
checksum from bytes 22-23, and the signature from
`value.toString('ascii', 24)`, i.e. the ASCII decoding of byte 24 to the
end of the buffer.  Reads beyond the end of the buffer are modelled as 0;
every caller passes a 30-byte slice. -/
def NEWLDRRecord.fromBuffer (value : List Nat) : NEWLDRRecord :=
  { size := value.getD 1 0
    physicalDrive := value.getD 8 0
    firstCHS := CHS.fromBytes (value.getD 9 0) (value.getD 10 0) (value.getD 11 0)
    minDL := value.getD 12 0
    firstLBA := value.getD 16 0 + 256 * value.getD 17 0
      + 65536 * value.getD 18 0 + 16777216 * value.getD 19 0
    patchOffset := value.getD 20 0 + 256 * value.getD 21 0
    checksum := value.getD 22 0 + 256 * value.getD 23 0
    signature := ⟨(value.drop 24).map (fun b => Char.ofNat (b % 128))⟩ }

/-- First-match evaluation of an ordered list of marker predicates, used
to state that `detectFormat` is an ordered predicate chain. -/
def firstMatch (ps : List ((List Nat → Bool) × MBRFormat)) (dflt : MBRFormat)
    (l : List Nat) : MBRFormat :=
  match ps with
  | [] => dflt
  | (p, f) :: rest => if p l then f else firstMatch rest dflt l

/-- The marker chain of `MBR.detectFormat` in source order. -/
def markerChain : List ((List Nat → Bool) × MBRFormat) :=
  [(astMarker, .AST), (dmMarker, .DM), (newldrTag, .NEWLDR),
   (aapMarker, .AAP), (modernMarker, .MODERN)]

lemma detectFormat_of_valid (l : List Nat) (h : 512 ≤ l.length)
    (hsig : readUInt16LE l 0x1FE = 0xAA55) :
    detectFormat l =
      if astMarker l then .ok .AST
      else if dmMarker l then .ok .DM
      else if newldrTag l then .ok .NEWLDR
      else if aapMarker l then .ok .AAP
      else if modernMarker l then .ok .MODERN
      else .ok .CLASSIC := by
  unfold detectFormat
  rw [if_neg (by omega), if_neg (by simp [hsig])]

lemma newldrTag_eq_false (l : List Nat) (h : 512 ≤ l.length) :
    newldrTag l = false := by
  have hne : asciiFrom l 0x02 ≠ newldrCodes := by
    intro heq
    have hlen := congrArg List.length heq
    simp [asciiFrom, newldrCodes] at hlen
    omega
  simpa [newldrTag] using hne

/-- C1, counterexample: `detectFormat` applied to the buffer returned by
`createBuffer` yields MODERN, not CLASSIC as the claim states — the blank
buffer has zero bytes at 0x0DA and 0x0DB, so the MODERN predicate fires
before the CLASSIC fallback is reached. -/
theorem createBuffer_detect_not_classic :
    detectFormat createBuffer = .ok .MODERN
    ∧ detectFormat createBuffer ≠ .ok .CLASSIC := by
  constructor
  · decide
  · decide

/-- C1, amended: `createBuffer` returns a buffer of exactly 512 bytes in
which every byte is zero except bytes 0x1FE-0x1FF, which are 0x55, 0xAA;
and `detectFormat` on that buffer yields MODERN (not CLASSIC, because the
all-zero bytes at 0x0DA-0x0DB satisfy the MODERN predicate first). -/
theorem createBuffer_blank_detect :
    createBuffer.length = 512
    ∧ createBuffer = List.replicate 0x1FE 0 ++ [0x55, 0xAA]
    ∧ detectFormat createBuffer = .ok .MODERN := by
  refine ⟨by decide, by decide, by decide⟩

/-- C4: `detectFormat` on any buffer shorter than 512 bytes fails with
the MalformedSector error (buffer too small) and never with an
InvalidSignature error, regardless of the buffer contents. -/
theorem detectFormat_short_buffer (l : List Nat) (h : l.length < 512) :
    detectFormat l = .error (.malformedSector tooSmallMessage)
    ∧ ∀ m, detectFormat l ≠ .error (.invalidSignature m) := by
  have hd : detectFormat l = .error (.malformedSector tooSmallMessage) := by
    unfold detectFormat
    rw [if_pos h]
  exact ⟨hd, fun m hm => by rw [hd] at hm; simp at hm⟩

/-- C4, witness: the empty buffer is shorter than 512 bytes and fails
with MalformedSector. -/
theorem detectFormat_short_buffer_witness :
    detectFormat [] = .error (.malformedSector tooSmallMessage)
    ∧ ∀ m, detectFormat [] ≠ .error (.invalidSignature m) :=
  detectFormat_short_buffer [] (by decide)

/-- C5, counterexample: on the all-zero 512-byte buffer (signature bytes
0x00, 0x00) the detector throws InvalidSignature, but the actual value 0
is rendered by `toString(16)` without zero padding as `0x0`, not as
`0x0000` as the claim states. -/
theorem detectFormat_zero_sig_message :
    detectFormat (List.replicate 512 0) =
      .error (.invalidSignature
        "Invalid MBR boot signature. Expected 0xAA55, but saw 0x0")
    ∧ sigMessage 0 ≠
        "Invalid MBR boot signature. Expected 0xAA55, but saw 0x0000" := by
  refine ⟨by decide, by decide⟩

/-- C5, amended: for every 512-byte buffer whose bytes at 0x1FE-0x1FF are
0x00, 0x00, `detectFormat` fails with an InvalidSignature error whose
message reports the actual 16-bit value read, rendered without zero
padding as `0x0`. -/
theorem detectFormat_zero_sig (l : List Nat) (h : l.length = 512)
    (h1 : l.getD 0x1FE 0 = 0) (h2 : l.getD 0x1FF 0 = 0) :
    detectFormat l =
      .error (.invalidSignature
        "Invalid MBR boot signature. Expected 0xAA55, but saw 0x0") := by
  have hv : readUInt16LE l 0x1FE = 0 := by
    unfold readUInt16LE
    rw [h1]
    rw [h2]
  have hmsg : sigMessage 0 =
      "Invalid MBR boot signature. Expected 0xAA55, but saw 0x0" := by decide
  unfold detectFormat
  rw [if_neg (by omega), if_pos (by rw [hv]; decide), hv, hmsg]

/-- C5, witness: the all-zero 512-byte buffer satisfies the hypotheses of
the amended statement. -/
theorem detectFormat_zero_sig_witness :
    detectFormat (List.replicate 512 0) =
      .error (.invalidSignature
        "Invalid MBR boot signature. Expected 0xAA55, but saw 0x0") :=
  detectFormat_zero_sig (List.replicate 512 0) (by decide) (by decide) (by decide)

/-- C6: on any byte buffer, `detectFormat` fails with MalformedSector
when the buffer is shorter than 512 bytes, fails with InvalidSignature
reporting the actual 16-bit value when the boot signature is not 0xAA55,
otherwise returns a tag drawn from the closed six-element variant set;
and it fails if and only if one of those two buffer conditions holds (the
third error kind, InvalidArgumentType, concerns non-buffer inputs, which
are outside the byte-list domain of the embedding). -/
theorem detectFormat_total (l : List Nat) :
    (l.length < 512 → detectFormat l = .error (.malformedSector tooSmallMessage))
    ∧ (512 ≤ l.length → readUInt16LE l 0x1FE ≠ 0xAA55 →
        detectFormat l = .error (.invalidSignature (sigMessage (readUInt16LE l 0x1FE))))
    ∧ (512 ≤ l.length → readUInt16LE l 0x1FE = 0xAA55 →
        ∃ t ∈ [MBRFormat.AST, .DM, .NEWLDR, .AAP, .MODERN, .CLASSIC],
          detectFormat l = .ok t)
    ∧ ((∃ e, detectFormat l = .error e) ↔
        l.length < 512 ∨ readUInt16LE l 0x1FE ≠ 0xAA55) := by
  have hshort : l.length < 512 →
      detectFormat l = .error (.malformedSector tooSmallMessage) := by
    intro h
    unfold detectFormat
    rw [if_pos h]
  have hbad : 512 ≤ l.length → readUInt16LE l 0x1FE ≠ 0xAA55 →
      detectFormat l = .error (.invalidSignature (sigMessage (readUInt16LE l 0x1FE))) := by
    intro h hsig
    unfold detectFormat
    rw [if_neg (by omega), if_pos hsig]
  have hok : 512 ≤ l.length → readUInt16LE l 0x1FE = 0xAA55 →
      ∃ t ∈ [MBRFormat.AST, .DM, .NEWLDR, .AAP, .MODERN, .CLASSIC],
        detectFormat l = .ok t := by
    intro h hsig
    rw [detectFormat_of_valid l h hsig]
    split_ifs <;> exact ⟨_, by simp, rfl⟩
  refine ⟨hshort, hbad, hok, ?_, ?_⟩
  · rintro ⟨e, he⟩
    by_contra hcon
    push_neg at hcon
    obtain ⟨h, hsig⟩ := hcon
    obtain ⟨t, _, ht⟩ := hok (by omega) hsig
    rw [ht] at he
    exact Except.noConfusion he
  · rintro (h | hsig)
    · exact ⟨_, hshort h⟩
    · rcases Nat.lt_or_ge l.length 512 with h | h
      · exact ⟨_, hshort h⟩
      · exact ⟨_, hbad h hsig⟩

/-- C6, witness: the blank buffer is at least 512 bytes long, carries a
valid signature, and the detector classifies it into the six-element set. -/
theorem detectFormat_total_witness :
    ∃ t ∈ [MBRFormat.AST, .DM, .NEWLDR, .AAP, .MODERN, .CLASSIC],
      detectFormat createBuffer = .ok t :=
  (detectFormat_total createBuffer).2.2.1 (by decide) (by decide)

/-- C2, code bug: the source compares `buffer.toString('ascii', 0x02)`
against the literal string with the end offset missing, so the decoded
string runs to the end of the buffer (at least 510 characters) and can
never equal the six-character tag; the detector therefore never returns
NEWLDR on any buffer of length at least 512.  In particular, on a
512-byte buffer that carries the tag at offsets 0x02-0x07, a valid boot
signature and no AST or DM marker — where the spec requires NEWLDR — the
detector falls through to MODERN. -/
theorem detectFormat_newldr_unreachable :
    (∀ l : List Nat, 512 ≤ l.length → detectFormat l ≠ .ok .NEWLDR)
    ∧ detectFormat
        ((((((createBuffer.set 2 0x4E).set 3 0x45).set 4 0x57).set 5
          0x4C).set 6 0x44).set 7 0x52) = .ok .MODERN := by
  constructor
  · intro l h hc
    have ht := newldrTag_eq_false l h
    by_cases hsig : readUInt16LE l 0x1FE = 0xAA55
    · rw [detectFormat_of_valid l h hsig] at hc
      rw [ht] at hc
      split_ifs at hc <;> simp_all
    · unfold detectFormat at hc
      rw [if_neg (by omega), if_pos hsig] at hc
      exact Except.noConfusion hc
  · decide

/-- C2, witness: the general unreachability conjunct applied to the
all-zero 512-byte buffer. -/
theorem detectFormat_newldr_unreachable_witness :
    detectFormat (List.replicate 512 0) ≠ .ok .NEWLDR :=
  detectFormat_newldr_unreachable.1 (List.replicate 512 0) (by decide)

/-- C3: on a buffer of length at least 512 with a valid boot signature
that carries both the AST marker and the DM marker, the detector returns
AST and not DM; and on every such valid buffer the result is the
first-match evaluation of the ordered chain AST, DM, NEWLDR, AAP, MODERN
with CLASSIC as the fallback, in source order. -/
theorem detectFormat_priority (l : List Nat) (h : 512 ≤ l.length)
    (hsig : readUInt16LE l 0x1FE = 0xAA55) :
    (astMarker l = true → dmMarker l = true →
      detectFormat l = .ok .AST ∧ detectFormat l ≠ .ok .DM)
    ∧ detectFormat l = .ok (firstMatch markerChain .CLASSIC l) := by
  have hvalid := detectFormat_of_valid l h hsig
  constructor
  · intro hast _
    rw [hvalid, if_pos hast]
    exact ⟨rfl, by simp⟩
  · rw [hvalid]
    simp only [markerChain, firstMatch]
    split_ifs <;> rfl

/-- C3, witness: a buffer carrying both the AST and the DM marker over a
valid signature is classified AST, not DM. -/
theorem detectFormat_priority_witness :
    detectFormat
        ((((createBuffer.set 0x17C 0x5A).set 0x17D 0xA5).set 0x0FC
          0xAA).set 0x0FD 0x55) = .ok .AST
    ∧ detectFormat
        ((((createBuffer.set 0x17C 0x5A).set 0x17D 0xA5).set 0x0FC
          0xAA).set 0x0FD 0x55) ≠ .ok .DM :=
  (detectFormat_priority
    ((((createBuffer.set 0x17C 0x5A).set 0x17D 0xA5).set 0x0FC
      0xAA).set 0x0FD 0x55) (by decide) (by decide)).1 (by decide) (by decide)

lemma toNat_ofNat_of_lt (m : Nat) (h : m < 128) : (Char.ofNat m).toNat = m := by
  have hv : m < 55296 ∨ 57343 < m ∧ m < 1114112 := Or.inl (by omega)
  simp [Char.ofNat, hv, Char.ofNatAux, Char.toNat]
  rfl

lemma sigBytes_length (s : String) : (sigBytes s).length = 6 := by
  simp [sigBytes]

lemma getBuffer_ok (r : NEWLDRRecord) (h1 : r.size < 256)
    (h2 : r.physicalDrive < 256) (h3 : r.minDL < 256)
    (h4 : r.firstLBA < 4294967296) (h5 : r.patchOffset < 65536)
    (h6 : r.checksum < 65536) :
    r.getBuffer = .ok ([0xEB, r.size] ++ newldrCodes ++ [r.physicalDrive]
      ++ r.firstCHS.toBytes ++ [r.minDL, 0, 0, 0] ++ le32 r.firstLBA
      ++ le16 r.patchOffset ++ le16 r.checksum ++ sigBytes r.signature) := by
  unfold NEWLDRRecord.getBuffer
  rw [if_neg (by omega), if_neg (by omega), if_neg (by omega),
    if_neg (by omega), if_neg (by omega), if_neg (by omega)]

lemma drop24_eq (l : List Nat) (h : l.length = 30) :
    l.drop 24 = [l.getD 24 0, l.getD 25 0, l.getD 26 0,
      l.getD 27 0, l.getD 28 0, l.getD 29 0] := by
  have hlt : ∀ i, i < 30 → i < l.length := by omega
  have e24 : l.drop 24 = l.get ⟨24, hlt 24 (by norm_num)⟩ :: l.drop 25 :=
    List.drop_eq_getElem_cons (hlt 24 (by norm_num))
  have e25 : l.drop 25 = l.get ⟨25, hlt 25 (by norm_num)⟩ :: l.drop 26 :=
    List.drop_eq_getElem_cons (hlt 25 (by norm_num))
  have e26 : l.drop 26 = l.get ⟨26, hlt 26 (by norm_num)⟩ :: l.drop 27 :=
    List.drop_eq_getElem_cons (hlt 26 (by norm_num))
  have e27 : l.drop 27 = l.get ⟨27, hlt 27 (by norm_num)⟩ :: l.drop 28 :=
    List.drop_eq_getElem_cons (hlt 27 (by norm_num))
  have e28 : l.drop 28 = l.get ⟨28, hlt 28 (by norm_num)⟩ :: l.drop 29 :=
    List.drop_eq_getElem_cons (hlt 28 (by norm_num))
  have e29 : l.drop 29 = l.get ⟨29, hlt 29 (by norm_num)⟩ :: l.drop 30 :=
    List.drop_eq_getElem_cons (hlt 29 (by norm_num))
  have e30 : l.drop 30 = [] := List.drop_eq_nil_of_le (by omega)
  have g24 : l.getD 24 0 = l.get ⟨24, hlt 24 (by norm_num)⟩ :=
    List.getD_eq_getElem l 0 (hlt 24 (by norm_num))
  have g25 : l.getD 25 0 = l.get ⟨25, hlt 25 (by norm_num)⟩ :=
    List.getD_eq_getElem l 0 (hlt 25 (by norm_num))
  have g26 : l.getD 26 0 = l.get ⟨26, hlt 26 (by norm_num)⟩ :=
    List.getD_eq_getElem l 0 (hlt 26 (by norm_num))
  have g27 : l.getD 27 0 = l.get ⟨27, hlt 27 (by norm_num)⟩ :=
    List.getD_eq_getElem l 0 (hlt 27 (by norm_num))
  have g28 : l.getD 28 0 = l.get ⟨28, hlt 28 (by norm_num)⟩ :=
    List.getD_eq_getElem l 0 (hlt 28 (by norm_num))
  have g29 : l.getD 29 0 = l.get ⟨29, hlt 29 (by norm_num)⟩ :=
    List.getD_eq_getElem l 0 (hlt 29 (by norm_num))
  rw [e24, e25, e26, e27, e28, e29, e30, g24, g25, g26, g27, g28, g29]

/-- C7, counterexample: the size byte at offset 1 of the encoded NEWLDR
record is taken from the caller-visible `size` field, not regenerated:
two records identical except for `size` encode different size bytes
(the regenerated value would be the fixed record size 0x16, which decode
and the constructor both store in `size`). -/
theorem newldr_size_byte_from_record :
    (NEWLDRRecord.getBuffer ⟨0x16, 0, ⟨0, 0, 0⟩, 0, 0, 0, 0, "MSWIN4"⟩).toOption.map
        (fun l => l.getD 1 0) = some 0x16
    ∧ (NEWLDRRecord.getBuffer ⟨0x17, 0, ⟨0, 0, 0⟩, 0, 0, 0, 0, "MSWIN4"⟩).toOption.map
        (fun l => l.getD 1 0) = some 0x17
    ∧ (0x16 : Nat) ≠ 0x17 := by
  refine ⟨by decide, by decide, by decide⟩

/-- C7, amended: for every in-memory NEWLDR record whose integer fields
are within their declared widths, encoding writes the jump opcode byte
0xEB at offset 0 and the literal six-byte ASCII tag at offsets 2-7
unconditionally (regenerated, independent of caller state), while the
size byte at offset 1 is written from the record `size` field. -/
theorem newldr_encode_header (r : NEWLDRRecord) (h1 : r.size < 256)
    (h2 : r.physicalDrive < 256) (h3 : r.minDL < 256)
    (h4 : r.firstLBA < 4294967296) (h5 : r.patchOffset < 65536)
    (h6 : r.checksum < 65536) :
    ∃ l, r.getBuffer = .ok l ∧ l.getD 0 0 = 0xEB ∧ l.getD 1 0 = r.size
      ∧ (l.drop 2).take 6 = newldrCodes :=
  ⟨_, getBuffer_ok r h1 h2 h3 h4 h5 h6, rfl, rfl, rfl⟩

/-- C7, witness: the amended header statement at a concrete record. -/
theorem newldr_encode_header_witness :
    ∃ l, (NEWLDRRecord.getBuffer ⟨0x16, 0x80, ⟨2, 3, 4⟩, 0, 0, 0, 0, "MSWIN4"⟩) = .ok l
      ∧ l.getD 0 0 = 0xEB ∧ l.getD 1 0 = (0x16 : Nat)
      ∧ (l.drop 2).take 6 = newldrCodes :=
  newldr_encode_header ⟨0x16, 0x80, ⟨2, 3, 4⟩, 0, 0, 0, 0, "MSWIN4"⟩
    (by decide) (by decide) (by decide) (by decide) (by decide) (by decide)

/-- C8: decoding a 30-byte NEWLDR buffer reads the size at byte 1, the
physical drive at byte 8, the CHS address from bytes 9-11, the
minimum-DL flag at byte 12, the 32-bit little-endian LBA at bytes 16-19,
the 16-bit patch offset at bytes 20-21, the 16-bit checksum at bytes
22-23; and when bytes 24-29 are ASCII the decoded signature field equals
exactly those six bytes.  Decode is a total function on 30-byte buffers:
no signature validation can reject an input. -/
theorem newldr_decode_offsets (l : List Nat) (h : l.length = 30) :
    (NEWLDRRecord.fromBuffer l).size = l.getD 1 0
    ∧ (NEWLDRRecord.fromBuffer l).physicalDrive = l.getD 8 0
    ∧ (NEWLDRRecord.fromBuffer l).firstCHS =
        CHS.fromBytes (l.getD 9 0) (l.getD 10 0) (l.getD 11 0)
    ∧ (NEWLDRRecord.fromBuffer l).minDL = l.getD 12 0
    ∧ (NEWLDRRecord.fromBuffer l).firstLBA = l.getD 16 0 + 256 * l.getD 17 0
        + 65536 * l.getD 18 0 + 16777216 * l.getD 19 0
    ∧ (NEWLDRRecord.fromBuffer l).patchOffset = l.getD 20 0 + 256 * l.getD 21 0
    ∧ (NEWLDRRecord.fromBuffer l).checksum = l.getD 22 0 + 256 * l.getD 23 0
    ∧ ((∀ i ∈ [24, 25, 26, 27, 28, 29], l.getD i 0 < 128) →
        (NEWLDRRecord.fromBuffer l).signature.data.map Char.toNat =
          [l.getD 24 0, l.getD 25 0, l.getD 26 0,
           l.getD 27 0, l.getD 28 0, l.getD 29 0]) := by
  refine ⟨rfl, rfl, rfl, rfl, rfl, rfl, rfl, ?_⟩
  intro hascii
  have c24 := hascii 24 (by decide)
  have c25 := hascii 25 (by decide)
  have c26 := hascii 26 (by decide)
  have c27 := hascii 27 (by decide)
  have c28 := hascii 28 (by decide)
  have c29 := hascii 29 (by decide)
  show ((l.drop 24).map (fun b => Char.ofNat (b % 128))).map Char.toNat = _
  rw [drop24_eq l h]
  simp only [List.map_cons, List.map_nil]
  rw [Nat.mod_eq_of_lt c24, Nat.mod_eq_of_lt c25, Nat.mod_eq_of_lt c26,
    Nat.mod_eq_of_lt c27, Nat.mod_eq_of_lt c28, Nat.mod_eq_of_lt c29,
    toNat_ofNat_of_lt _ c24, toNat_ofNat_of_lt _ c25, toNat_ofNat_of_lt _ c26,
    toNat_ofNat_of_lt _ c27, toNat_ofNat_of_lt _ c28, toNat_ofNat_of_lt _ c29]

/-- C8, witness: the signature clause at the concrete buffer whose bytes
are 0, 1, ..., 29. -/
theorem newldr_decode_offsets_witness :
    (NEWLDRRecord.fromBuffer (List.range 30)).signature.data.map Char.toNat =
      [(List.range 30).getD 24 0, (List.range 30).getD 25 0,
       (List.range 30).getD 26 0, (List.range 30).getD 27 0,
       (List.range 30).getD 28 0, (List.range 30).getD 29 0] :=
  (newldr_decode_offsets (List.range 30) (by decide)).2.2.2.2.2.2.2 (by decide)

/-- The input positions the NEWLDR decode reads: byte 1 (size), bytes
8-12 (drive, CHS, minimum-DL), bytes 16-23 (LBA, patch offset, checksum)
and bytes 24 onward (signature). -/
def newldrDataOffsets : List Nat :=
  [1, 8, 9, 10, 11, 12, 16, 17, 18, 19, 20, 21, 22, 23, 24, 25, 26, 27, 28, 29]

/-- C9: NEWLDR decode depends only on input bytes 1, 8-12, 16-23 and 24
onward; two 30-byte buffers agreeing there — however they differ at the
jump opcode byte 0, the tag bytes 2-7 or the reserved bytes 13-15 —
decode to records with identical field values. -/
theorem newldr_decode_depends_only_on_data (a b : List Nat)
    (ha : a.length = 30) (hb : b.length = 30)
    (hagree : ∀ i ∈ newldrDataOffsets, a.getD i 0 = b.getD i 0) :
    NEWLDRRecord.fromBuffer a = NEWLDRRecord.fromBuffer b := by
  have h1 := hagree 1 (by decide)
  have h8 := hagree 8 (by decide)
  have h9 := hagree 9 (by decide)
  have h10 := hagree 10 (by decide)
  have h11 := hagree 11 (by decide)
  have h12 := hagree 12 (by decide)
  have h16 := hagree 16 (by decide)
  have h17 := hagree 17 (by decide)
  have h18 := hagree 18 (by decide)
  have h19 := hagree 19 (by decide)
  have h20 := hagree 20 (by decide)
  have h21 := hagree 21 (by decide)
  have h22 := hagree 22 (by decide)
  have h23 := hagree 23 (by decide)
  have h24 := hagree 24 (by decide)
  have h25 := hagree 25 (by decide)
  have h26 := hagree 26 (by decide)
  have h27 := hagree 27 (by decide)
  have h28 := hagree 28 (by decide)
  have h29 := hagree 29 (by decide)
  unfold NEWLDRRecord.fromBuffer
  rw [drop24_eq a ha, drop24_eq b hb, h1, h8, h9, h10, h11, h12, h16, h17,
    h18, h19, h20, h21, h22, h23, h24, h25, h26, h27, h28, h29]

/-- C9, witness: the buffer 0, 1, ..., 29 and the same buffer with bytes
0, 2-7 and 13-15 overwritten by 99 decode to the same record. -/
theorem newldr_decode_depends_only_on_data_witness :
    NEWLDRRecord.fromBuffer (List.range 30) =
      NEWLDRRecord.fromBuffer
        ((((((((((((List.range 30).set 0 99).set 2 99).set 3 99).set 4
          99).set 5 99).set 6 99).set 7 99).set 13 99).set 14 99).set 15 99)) :=
  newldr_decode_depends_only_on_data _ _ (by decide) (by decide) (by decide)

/-- C10, counterexample: a record whose `size` field holds the
out-of-range value 256 makes the checked `writeUInt8` throw, so encoding
produces no 30-byte output at all, against the claim that the encoded
output is 30 bytes even for over-long integer fields. -/
theorem newldr_encode_out_of_range :
    NEWLDRRecord.getBuffer ⟨256, 0, ⟨0, 0, 0⟩, 0, 0, 0, 0, "MSWIN4"⟩ =
      .error outOfBoundsMessage
    ∧ (NEWLDRRecord.getBuffer ⟨256, 0, ⟨0, 0, 0⟩, 0, 0, 0, 0, "MSWIN4"⟩).toOption
        = none := by
  refine ⟨by decide, by decide⟩

/-- C10, amended: for every in-memory NEWLDR record whose integer fields
are within their declared widths — with the string signature field
arbitrary, over-long strings included — the encoded output is exactly 30
bytes and the three reserved bytes at offsets 13-15 are zero; an
out-of-range integer field instead makes the encode throw. -/
theorem newldr_encode_shape (r : NEWLDRRecord) (h1 : r.size < 256)
    (h2 : r.physicalDrive < 256) (h3 : r.minDL < 256)
    (h4 : r.firstLBA < 4294967296) (h5 : r.patchOffset < 65536)
    (h6 : r.checksum < 65536) :
    ∃ l, r.getBuffer = .ok l ∧ l.length = 30
      ∧ l.getD 13 0 = 0 ∧ l.getD 14 0 = 0 ∧ l.getD 15 0 = 0 := by
  refine ⟨_, getBuffer_ok r h1 h2 h3 h4 h5 h6, ?_, rfl, rfl, rfl⟩
  simp [List.length_append, sigBytes_length, CHS.toBytes, le32, le16, newldrCodes]

/-- C10, witness: the amended shape statement at a concrete record whose
signature string is over-long (eleven characters). -/
theorem newldr_encode_shape_witness :
    ∃ l, (NEWLDRRecord.getBuffer
        ⟨0x16, 0x80, ⟨5, 6, 7⟩, 0, 123456, 36, 0, "MSWIN4EXTRA"⟩) = .ok l
      ∧ l.length = 30
      ∧ l.getD 13 0 = 0 ∧ l.getD 14 0 = 0 ∧ l.getD 15 0 = 0 :=
  newldr_encode_shape ⟨0x16, 0x80, ⟨5, 6, 7⟩, 0, 123456, 36, 0, "MSWIN4EXTRA"⟩
    (by decide) (by decide) (by decide) (by decide) (by decide) (by decide)

end MBRSpec
